import Mathlib

/-!
Verification of the BoostMyGEO ingestion-to-report pipeline core
(`src/api/main.py`) against its natural-language specification.

The HTTP shell, the external AI search provider, the abuse-guard store and
the email transport are collaborators: they are modelled as parameters
(oracles / outcome flags) of the embedded functions.  The control flow of
`submit_file` and `process_file_worker`, and the pure helper
`create_geo_targeted_prompt`, are translated directly from the source.
The Metrics Engine (`metrics.py`) and the file-size validator
(`file_processor.py`) are not part of the source tree; they are modelled
from the specification, as marked on each such definition.
-/

namespace BoostMyGeo

/-! ## Geo-Prompt Builder (from `create_geo_targeted_prompt`, src/api/main.py) -/

/-- The `country_prompts` dictionary of `create_geo_targeted_prompt`,
embedded as an association list in source order. -/
def country_prompts : List (String × String) :=
  [ ("USA", "Answer as if responding to someone in the United States")
  , ("UK", "Answer as if responding to someone in the United Kingdom")
  , ("Germany", "Answer as if responding to someone in Germany, auf Deutsch wenn nötig")
  , ("France", "Answer as if responding to someone in France, en français si nécessaire")
  , ("Canada", "Answer as if responding to someone in Canada")
  , ("Australia", "Answer as if responding to someone in Australia") ]

/-- Dictionary lookup with the generic templated fallback, as written in the
source: country_prompts.get falls back to a preamble naming the country
verbatim. -/
def geo_context (country : String) : String :=
  (List.lookup country country_prompts).getD
    ("Answer as if responding to someone in " ++ country)

/-- From src/api/main.py: `create_geo_targeted_prompt` appends the original
prompt after the geo context and a colon. -/
def create_geo_targeted_prompt (prompt country : String) : String :=
  geo_context country ++ ": " ++ prompt

/-! ## Metrics Engine

`metrics.py` (class `MetricsCalculator`, used by `process_file_worker` as
`MetricsCalculator.calculate_metrics_for_query`) is not under `src/`; the
definitions below are modelled from the specification (§4.4, §8). -/

/-- Modelled from the spec: the host of a source URL, scheme-agnostic and
case-insensitive — strip an `http://` or `https://` scheme, keep the part
before the first `/`, and lower-case it.  (`metrics.py` is missing.) -/
def hostOf (url : String) : String :=
  let l := url.data
  let noScheme :=
    if l.take 8 = "https://".data then l.drop 8
    else if l.take 7 = "http://".data then l.drop 7
    else l
  String.mk ((noScheme.takeWhile (fun c => c ≠ '/')).map Char.toLower)

/-- Modelled from the spec: a source URL matches the target domain when its
host equals the target or is a sub-domain of it (case-insensitive).
(`metrics.py` is missing.) -/
def source_matches (target url : String) : Bool :=
  let h := (hostOf url).data
  let t := (target.data.map Char.toLower)
  h = t || List.isSuffixOf ('.' :: t) h

/-- Modelled from the spec: the 1-based rank of the first source matching the
target domain, or `none` when no source matches.  (`metrics.py` is missing.) -/
def first_position (target : String) : List String → Option Nat
  | [] => none
  | u :: us =>
    if source_matches target u then some 1
    else (first_position target us).map (· + 1)

/-- Modelled from the spec: the visibility score, a 0–100 integer combining a
presence weight (when mentioned), an inverse-rank bonus decaying toward zero,
and a penalty proportional to (capped in) the number of distinct competitor
domains ranked above the target; clamped to [0, 100].  The exact weighting is
declared tunable by the spec; this instance satisfies the binding contract of
§4.4 (a)–(c).  (`metrics.py` is missing.) -/
def visibility_score (pos : Option Nat) (mentioned : Bool) (competitors : Nat) : Nat :=
  let presence := if mentioned then 60 else 0
  let rank_bonus :=
    match pos with
    | some p => 40 - 2 * (p - 1)
    | none => 0
  let penalty := min (5 * competitors) 40
  min 100 (presence + rank_bonus - penalty)

/-- The per-query fragment produced by the Metrics Engine (spec §3,
`MetricsRecord` minus the prompts and token count added by the orchestrator). -/
structure MetricsFragment where
  target_domain : String
  country : String
  position : Option Nat
  mentioned : Bool
  visibility_score : Nat
  competitor_domains : List String
  deriving DecidableEq, Repr

/-- Modelled from the spec: `MetricsCalculator.calculate_metrics_for_query` —
first matching source gives the 1-based position and `mentioned = true`;
`competitor_domains` is the deduplicated list of hosts strictly before the
first match (all hosts when there is no match).  (`metrics.py` is missing.) -/
def calculate_metrics (sources : List String) (target country : String) : MetricsFragment :=
  let pos := first_position target sources
  let competitors :=
    match pos with
    | some p => ((sources.take (p - 1)).map hostOf).dedup
    | none => (sources.map hostOf).dedup
  { target_domain := target
  , country := country
  , position := pos
  , mentioned := pos.isSome
  , visibility_score := visibility_score pos pos.isSome competitors.length
  , competitor_domains := competitors }

/-! ## Data model shared by the orchestrator (spec §3, src/api/main.py) -/

/-- One parsed spreadsheet row (spec §3 `QueryRow`; the columns read from
`queries_df` in `process_file_worker`). -/
structure QueryRow where
  country : String
  prompt : String
  target_domain : String
  deriving DecidableEq, Repr

/-- The answer of the Search Adapter (`openai_client.search_with_web`:
`sources` plus `usage.total_tokens`). -/
structure SearchRes where
  sources : List String
  total_tokens : Option Nat
  deriving DecidableEq, Repr

/-- One report row as assembled in `process_file_worker`: the original and
geo-targeted prompts, the metrics fragment, and the token count
(spec §3 `MetricsRecord`). -/
structure MetricsRecord where
  original_prompt : String
  geo_prompt : String
  target_domain : String
  country : String
  position : Option Nat
  mentioned : Bool
  visibility_score : Nat
  competitor_domains : List String
  tokens_used : Option Nat
  deriving DecidableEq, Repr

/-- The `result_row` dictionary built inside the loop of
`process_file_worker`: prompts, the metrics fields, and `Tokens Used`. -/
def make_result_row (q : QueryRow) (gp : String) (sr : SearchRes) : MetricsRecord :=
  let frag := calculate_metrics sr.sources q.target_domain q.country
  { original_prompt := q.prompt
  , geo_prompt := gp
  , target_domain := frag.target_domain
  , country := frag.country
  , position := frag.position
  , mentioned := frag.mentioned
  , visibility_score := frag.visibility_score
  , competitor_domains := frag.competitor_domains
  , tokens_used := sr.total_tokens }

/-! ## Job Orchestrator (`process_file_worker`, src/api/main.py lines 406–457)

The collaborators are parameters: the Ingestor outcome is an `Except`, the
Search Adapter is an oracle `String → Except String SearchRes` (an `error`
models the call raising), and the guard-store save / email send are flags
(`false` models the call raising).  Observable side effects are recorded as
an event trace. -/

/-- Observable side effects of one run of `process_file_worker`. -/
inductive WEv where
  | searchCall (geoPrompt : String)
  | emailSaved (email : String) (ip : String)
  | reportSent (email : String) (rowCount : Nat)
  | removeTry
  deriving DecidableEq, Repr

/-- Holds exactly on `emailSaved` events. -/
def WEv.isSave : WEv → Bool
  | WEv.emailSaved _ _ => true
  | _ => false

/-- Holds exactly on `reportSent` events. -/
def WEv.isSend : WEv → Bool
  | WEv.reportSent _ _ => true
  | _ => false

/-- The row loop of `process_file_worker`: for each row build the geo prompt,
call the Search Adapter, compute metrics, append the result row.  There is no
per-row exception handler in the source: an adapter error stops the loop and
propagates (modelled by the `Except.error` outcome); rows after the failing
one are not processed. -/
def processRows (search : String → Except String SearchRes) :
    List QueryRow → Except String (List MetricsRecord) × List WEv
  | [] => (Except.ok [], [])
  | q :: qs =>
    let gp := create_geo_targeted_prompt q.prompt q.country
    match search gp with
    | Except.error e => (Except.error e, [WEv.searchCall gp])
    | Except.ok sr =>
      match processRows search qs with
      | (Except.error e, evs) => (Except.error e, WEv.searchCall gp :: evs)
      | (Except.ok rows, evs) =>
        (Except.ok (make_result_row q gp sr :: rows), WEv.searchCall gp :: evs)

/-- The worker `process_file_worker(file_path, email, ip)`: the whole body is wrapped in
`try … except Exception: print(…)`, and the `finally` block attempts
`os.remove(file_path)` inside its own `try … except: pass`.  On success the
guard record is saved (`db.save_email`) and then the report is emailed
(`email_service.send_report_email`); `saveOk = false` / `sendOk = false`
model those calls raising, which the outer handler swallows.  `worker_body`
is the `try` body (everything the job does before the `finally` clause). -/
def worker_body (parse : Except String (List QueryRow))
    (search : String → Except String SearchRes)
    (saveOk sendOk : Bool) (email ip : String) : List WEv :=
  match parse with
  | Except.error _ => []
  | Except.ok rows =>
    match processRows search rows with
    | (Except.error _, evs) => evs
    | (Except.ok results, evs) =>
      if saveOk then
        if sendOk then
          evs ++ [WEv.emailSaved email ip, WEv.reportSent email results.length]
        else
          evs ++ [WEv.emailSaved email ip]
      else evs

/-- Full `process_file_worker`: the `try` body followed by the `finally`
clause, which attempts `os.remove(file_path)` exactly once and swallows any
cleanup error (`try: os.remove(...) except: pass`). -/
def process_file_worker (parse : Except String (List QueryRow))
    (search : String → Except String SearchRes)
    (saveOk sendOk : Bool) (email ip : String) : List WEv :=
  worker_body parse search saveOk sendOk email ip ++ [WEv.removeTry]

/-! ## Submit handler (`submit_file`, src/api/main.py lines 500–561) -/

/-- Outcome of the abuse-guard store call `db.check_ip_file_access`:
it returns normally, raises `PermissionError`, or raises any other
exception (a storage outage). -/
inductive GuardBehavior where
  | allow : GuardBehavior
  | deny : String → GuardBehavior
  | storeFail : String → GuardBehavior
  deriving DecidableEq, Repr

/-- Observable side effects of one run of `submit_file`. -/
inductive SEv where
  | guardAccess (ip : String) (fileHash : String) (allowRetry : Bool)
  | tempWrite (suffix : String)
  | workerStart (email : String) (ip : String)
  deriving DecidableEq, Repr

/-- Collaborator behaviour for one run of `submit_file`.  `emailOk` models
`EMAIL_REGEX.match`, `hashFn` models `hashlib.sha256(...).hexdigest()`,
`extFn` models `FileProcessor.get_file_extension`, `maxBytes` the configured
upload ceiling (`config.py` and `file_processor.py` are not under `src/`, so
these stay abstract); `readFails`, `guard` and `tempFails` are the outcomes
of `file.read()`, the guard-store call and the temp-file write. -/
structure SubmitEnv where
  emailOk : String → Bool
  hashFn : List Nat → String
  extFn : String → String
  maxBytes : Nat
  readFails : Bool
  guard : GuardBehavior
  tempFails : Bool
  allowRetry : Bool

/-- The handler `submit_file(request, email, file)`: email-format check, `file.read()`,
size validation (modelled from the spec: `validate_file_size` rejects
payloads above the byte ceiling with a `ValueError`, surfaced as 400),
then client IP + SHA-256 fingerprint, the guard-store admission call
(`PermissionError` → 429, any other exception swallowed with a log line),
then the temp-file staging (failure → 500) and the worker thread start.
Returns the HTTP status code and the event trace. -/
def submit_file (env : SubmitEnv) (email fname : String)
    (content : List Nat) (ip : String) : Nat × List SEv :=
  if env.emailOk email = false then (400, [])
  else if env.readFails then (400, [])
  else if env.maxBytes < content.length then (400, [])
  else
    let fileHash := env.hashFn content
    let g := SEv.guardAccess ip fileHash env.allowRetry
    let cont : Nat × List SEv :=
      if env.tempFails then (500, [g])
      else (200, [g, SEv.tempWrite (env.extFn fname), SEv.workerStart email ip])
    match env.guard with
    | GuardBehavior.deny _ => (429, [g])
    | GuardBehavior.allow => cont
    | GuardBehavior.storeFail _ => cont

/-- The arguments of the first guard-store access in a trace, when any. -/
def guardArgs : List SEv → Option (String × String × Bool)
  | [] => none
  | SEv.guardAccess ip h r :: _ => some (ip, h, r)
  | _ :: evs => guardArgs evs

/-! ## Report Assembler (spec §4.6; `pd.DataFrame(results).to_csv(index=False,
encoding="utf-8-sig")` in `process_file_worker`, src/api/main.py lines 444–445)

The renderer follows standard CSV minimal quoting, which is what
`pandas.to_csv` emits: a field containing a quote, comma or newline is
wrapped in quotes with inner quotes doubled; rows are joined by `\n` with a
trailing newline; the artifact is prefixed by the UTF-8 BOM mark of
`utf-8-sig`.  A reference reader `parseCsv` is defined alongside to state
the round-trip property. -/

/-- The BOM code point U+FEFF that `utf-8-sig` prepends. -/
def bomChar : Char := Char.ofNat 65279

/-- Double every quote character (CSV quote escaping). -/
def dq : List Char → List Char
  | [] => []
  | c :: cs => if c = '"' then '"' :: '"' :: dq cs else c :: dq cs

/-- A field needs quoting when it contains a quote, the separator or a
newline (CSV minimal quoting). -/
def needsQuote (f : List Char) : Bool :=
  f.any (fun c => c = '"' || c = ',' || c = '\n')

/-- Render one field, quoting it when needed. -/
def escField (f : List Char) : List Char :=
  if needsQuote f then '"' :: (dq f ++ ['"']) else f

/-- Render one row: escaped fields joined by commas. -/
def renderRow : List (List Char) → List Char
  | [] => []
  | [f] => escField f
  | f :: fs => escField f ++ ',' :: renderRow fs

/-- Render a table: one line per row, each terminated by a newline
(as `pandas.to_csv` does, including after the last row). -/
def renderTable : List (List (List Char)) → List Char
  | [] => []
  | r :: rs => renderRow r ++ '\n' :: renderTable rs

/-- Prepend a character to the leading field of the leading row. -/
def prep (c : Char) : List (List (List Char)) → List (List (List Char))
  | [] => [[[c]]]
  | [] :: rs => [[c]] :: rs
  | (f :: fs) :: rs => ((c :: f) :: fs) :: rs

/-- Open a fresh leading field in the leading row. -/
def newField : List (List (List Char)) → List (List (List Char))
  | [] => [[[], []]]
  | r :: rs => ([] :: r) :: rs

/-- Reference CSV reader, written as a right fold over the text: the first
argument tells whether the position is inside a quoted field.  The reader is
total (a dangling quote is read leniently to the end of input).  In quoted
mode, a quote followed by anything but a second quote closes the field and
the next character is handled in normal mode (inlined here to keep the
recursion structural); normal mode opens quotes, splits fields on commas and
rows on newlines. -/
def pcsv : Bool → List Char → List (List (List Char))
  | _, [] => [[[]]]
  | true, c :: rest =>
    if c = '"' then
      match rest with
      | [] => [[[]]]
      | d :: rest2 =>
        if d = '"' then prep '"' (pcsv true rest2)
        else if d = ',' then newField (pcsv false rest2)
        else if d = '\n' then [[]] :: pcsv false rest2
        else prep d (pcsv false rest2)
    else prep c (pcsv true rest)
  | false, c :: rest =>
    if c = '"' then pcsv true rest
    else if c = ',' then newField (pcsv false rest)
    else if c = '\n' then [[]] :: pcsv false rest
    else prep c (pcsv false rest)

/-- Prepend a whole character list to the leading field of the leading row. -/
def consF (f : List Char) (t : List (List (List Char))) : List (List (List Char)) :=
  f.foldr prep t

/-- Drop a leading `utf-8-sig` BOM mark. -/
def stripBom : List Char → List Char
  | [] => []
  | c :: rest => if c = bomChar then rest else c :: rest

/-- Drop the empty row produced by the terminating newline. -/
def stripTrailingEmptyRow (t : List (List (List Char))) : List (List (List Char)) :=
  if t.getLast? = some [[]] then t.dropLast else t

/-- Parse a CSV artifact back into its table of fields. -/
def parseCsv (l : List Char) : List (List (List Char)) :=
  stripTrailingEmptyRow (pcsv false (stripBom l))

/-- Render an optional count the way an absent value appears in the table:
an empty cell. -/
def optNatField : Option Nat → String
  | none => ""
  | some n => toString n

/-- Render a boolean cell. -/
def boolField : Bool → String
  | true => "True"
  | false => "False"

/-- Modelled from the spec: the cells of one report row — both prompts, all
`MetricsRecord` fields and the token count (§4.6; the concrete cell
formats of the missing `metrics.py` columns are chosen here). -/
def recordFields (r : MetricsRecord) : List String :=
  [ r.original_prompt, r.geo_prompt, r.target_domain, r.country
  , optNatField r.position, boolField r.mentioned
  , toString r.visibility_score
  , String.intercalate "; " r.competitor_domains
  , optNatField r.tokens_used ]

/-- The header row: the two prompt columns named in `process_file_worker`,
the metrics columns, and `Tokens Used`. -/
def headerFields : List String :=
  [ "Оригинальный промпт", "Геотаргетированный промпт", "target_domain"
  , "country", "position", "mentioned", "visibility_score"
  , "competitor_domains", "Tokens Used" ]

/-- View a row of string cells as character lists. -/
def fieldsToChars (fs : List String) : List (List Char) := fs.map String.data

/-- Modelled from the spec: the Report Assembler — header row plus one row
per record, CSV-encoded with a `utf-8-sig` BOM (§4.6; the source delegates
the encoding to `pandas.to_csv`, which is outside the repository). -/
def assembleReport (records : List MetricsRecord) : List Char :=
  bomChar ::
    renderTable (fieldsToChars headerFields ::
      records.map (fun r => fieldsToChars (recordFields r)))

/-- The three-row job of the scenario in §8 of the spec. -/
def c1rows : List QueryRow :=
  [⟨"UK", "p1", "t.com"⟩, ⟨"UK", "p2", "t.com"⟩, ⟨"UK", "p3", "t.com"⟩]

/-- A Search Adapter that raises exactly on the geo prompt of row 2. -/
def c1search : String → Except String SearchRes := fun gp =>
  if gp = create_geo_targeted_prompt "p2" "UK" then Except.error "timeout"
  else Except.ok ⟨["t.com"], some 10⟩

/-! ## Theorems -/

/-- Lemma: `first_position` misses exactly when no source matches. -/
theorem first_position_eq_none_iff (t : String) (l : List String) :
    first_position t l = none ↔ ∀ u ∈ l, source_matches t u = false := by
  induction l with
  | nil => simp [first_position]
  | cons u us ih =>
    cases hm : source_matches t u with
    | true => simp [first_position, hm]
    | false => simp [first_position, hm, ih]

/-- Lemma: `first_position` returns `some p` exactly when the list splits at the
(1-based) `p`-th element into non-matching sources, a matching source, and a
remainder. -/
theorem first_position_eq_some_iff (t : String) (l : List String) (p : Nat) :
    first_position t l = some p ↔
      ∃ pre u post, l = pre ++ u :: post ∧ pre.length + 1 = p ∧
        source_matches t u = true ∧ ∀ v ∈ pre, source_matches t v = false := by
  induction l generalizing p with
  | nil =>
    constructor
    · intro h; simp [first_position] at h
    · rintro ⟨pre, u, post, h, -⟩
      cases pre <;> simp at h
  | cons w ws ih =>
    cases hm : source_matches t w with
    | true =>
      constructor
      · intro h
        simp [first_position, hm] at h
        exact ⟨[], w, ws, rfl, by simp only [List.length_nil]; omega, hm, by simp⟩
      · rintro ⟨pre, u, post, heq, hlen, hu, hpre⟩
        cases pre with
        | nil =>
          simp only [List.nil_append, List.cons.injEq] at heq
          obtain ⟨rfl, rfl⟩ := heq
          simp only [List.length_nil] at hlen
          simp [first_position, hm]
          omega
        | cons a pre2 =>
          simp only [List.cons_append, List.cons.injEq] at heq
          obtain ⟨rfl, -⟩ := heq
          have hf := hpre w (by simp)
          rw [hm] at hf
          cases hf
    | false =>
      constructor
      · intro h
        simp only [first_position, hm, if_neg, Bool.false_eq_true, if_false,
          Option.map_eq_some'] at h
        obtain ⟨q, hq, rfl⟩ := h
        obtain ⟨pre, u, post, rfl, hlen, hu, hpre⟩ := (ih q).mp hq
        refine ⟨w :: pre, u, post, rfl, by simp only [List.length_cons]; omega, hu, ?_⟩
        intro v hv
        rcases List.mem_cons.mp hv with rfl | hv2
        · exact hm
        · exact hpre v hv2
      · rintro ⟨pre, u, post, heq, hlen, hu, hpre⟩
        cases pre with
        | nil =>
          simp only [List.nil_append, List.cons.injEq] at heq
          obtain ⟨rfl, rfl⟩ := heq
          rw [hm] at hu
          cases hu
        | cons a pre2 =>
          simp only [List.cons_append, List.cons.injEq] at heq
          obtain ⟨rfl, heq2⟩ := heq
          have hws : first_position t ws = some (pre2.length + 1) :=
            (ih _).mpr ⟨pre2, u, post, heq2, rfl, hu,
              fun v hv => hpre v (by simp [hv])⟩
          simp only [List.length_cons] at hlen
          simp [first_position, hm, hws]
          omega

/-- Claim C4: the visibility score is an integer always in [0, 100] (it is a
natural number, so non-negative by type, and never exceeds 100); for a fixed
mentioned outcome and fixed competitor count it is monotonically
non-increasing in the position; and for equal competitor counts an
score of an unmentioned row is strictly less than that of a mentioned row. -/
theorem C4_visibility_score_contract :
    (∀ pos m c, visibility_score pos m c ≤ 100)
  ∧ (∀ p q c, p ≤ q →
      visibility_score (some q) true c ≤ visibility_score (some p) true c)
  ∧ (∀ p c, visibility_score none false c < visibility_score (some p) true c) := by
  refine ⟨?_, ?_, ?_⟩
  · intro pos m c
    simp [visibility_score]
  · intro p q c hpq
    simp [visibility_score]
    omega
  · intro p c
    simp [visibility_score]
    omega

/-- Witness for C4 at concrete inputs. -/
theorem C4_visibility_score_contract_witness :
    visibility_score (some 5) true 2 ≤ visibility_score (some 2) true 2 ∧
    visibility_score none false 2 < visibility_score (some 2) true 2 :=
  ⟨C4_visibility_score_contract.2.1 2 5 2 (by decide),
   C4_visibility_score_contract.2.2 2 2⟩

/-- Claim C5: the metrics computation sets `position` to the 1-based index of
the first matching source and `mentioned` accordingly; when no source
matches, `position = none` and `mentioned = false`; `competitor_domains` is
the deduplicated list of hosts strictly before the first match, or of all
hosts when there is no match; and on the example of the spec,
`[a.com, b.com, target.com, c.com]` with target `target.com` the position is
3, mentioned is true and the competitors are `a.com` and `b.com`. -/
theorem C5_metrics_characterisation (sources : List String) (target country : String) :
    ((calculate_metrics sources target country).position = first_position target sources
  ∧ (calculate_metrics sources target country).mentioned
      = (first_position target sources).isSome)
  ∧ (∀ p, first_position target sources = some p ↔
      ∃ pre u post, sources = pre ++ u :: post ∧ pre.length + 1 = p ∧
        source_matches target u = true ∧ ∀ v ∈ pre, source_matches target v = false)
  ∧ (first_position target sources = none ↔
      ∀ u ∈ sources, source_matches target u = false)
  ∧ (∀ pre u post, sources = pre ++ u :: post → source_matches target u = true →
      (∀ v ∈ pre, source_matches target v = false) →
      (calculate_metrics sources target country).position = some (pre.length + 1)
      ∧ (calculate_metrics sources target country).competitor_domains
          = (pre.map hostOf).dedup)
  ∧ (first_position target sources = none →
      (calculate_metrics sources target country).competitor_domains
        = (sources.map hostOf).dedup)
  ∧ ((calculate_metrics ["a.com", "b.com", "target.com", "c.com"] "target.com" "USA").position = some 3
  ∧ (calculate_metrics ["a.com", "b.com", "target.com", "c.com"] "target.com" "USA").mentioned = true
  ∧ (calculate_metrics ["a.com", "b.com", "target.com", "c.com"] "target.com" "USA").competitor_domains
      = ["a.com", "b.com"]) := by
  refine ⟨⟨rfl, rfl⟩, fun p => first_position_eq_some_iff target sources p,
    first_position_eq_none_iff target sources, ?_, ?_, by decide⟩
  · intro pre u post heq hu hpre
    subst heq
    have hpos : first_position target (pre ++ u :: post) = some (pre.length + 1) :=
      (first_position_eq_some_iff target _ _).mpr
        ⟨pre, u, post, rfl, rfl, hu, hpre⟩
    constructor
    · exact hpos
    · simp only [calculate_metrics, hpos, Nat.add_sub_cancel]
      rw [List.take_left]
  · intro hpos
    simp [calculate_metrics, hpos]

/-- Witness for C5 at the concrete example of the spec. -/
theorem C5_metrics_characterisation_witness :
    (calculate_metrics ["a.com", "b.com", "target.com", "c.com"] "target.com" "USA").position
      = some (["a.com", "b.com"].length + 1) ∧
    (calculate_metrics ["a.com", "b.com", "target.com", "c.com"] "target.com" "USA").competitor_domains
      = (["a.com", "b.com"].map hostOf).dedup :=
  (C5_metrics_characterisation ["a.com", "b.com", "target.com", "c.com"] "target.com" "USA").2.2.2.1
    ["a.com", "b.com"] "target.com" ["c.com"] rfl (by decide) (by decide)

/-- Claim C6: the geo-prompt builder maps each known country to its canned
preamble, every other country to the generic preamble naming the country
verbatim, appends the original prompt after the preamble and a colon, and
always returns a non-empty string. -/
theorem C6_geo_prompt_builder (prompt country : String) :
    (create_geo_targeted_prompt prompt "USA"
      = "Answer as if responding to someone in the United States: " ++ prompt)
  ∧ (create_geo_targeted_prompt prompt "UK"
      = "Answer as if responding to someone in the United Kingdom: " ++ prompt)
  ∧ (create_geo_targeted_prompt prompt "Germany"
      = "Answer as if responding to someone in Germany, auf Deutsch wenn nötig: " ++ prompt)
  ∧ (create_geo_targeted_prompt prompt "France"
      = "Answer as if responding to someone in France, en français si nécessaire: " ++ prompt)
  ∧ (create_geo_targeted_prompt prompt "Canada"
      = "Answer as if responding to someone in Canada: " ++ prompt)
  ∧ (create_geo_targeted_prompt prompt "Australia"
      = "Answer as if responding to someone in Australia: " ++ prompt)
  ∧ (country ∉ ["USA", "UK", "Germany", "France", "Canada", "Australia"] →
      create_geo_targeted_prompt prompt country
        = "Answer as if responding to someone in " ++ country ++ ": " ++ prompt)
  ∧ (create_geo_targeted_prompt prompt country
      = geo_context country ++ ": " ++ prompt)
  ∧ 0 < (create_geo_targeted_prompt prompt country).length := by
  refine ⟨rfl, rfl, rfl, rfl, rfl, rfl, ?_, rfl, ?_⟩
  · intro h
    simp only [List.mem_cons, List.mem_singleton, not_or] at h
    obtain ⟨h1, h2, h3, h4, h5, h6, -⟩ := h
    have e1 : (country == "USA") = false := beq_eq_false_iff_ne.mpr h1
    have e2 : (country == "UK") = false := beq_eq_false_iff_ne.mpr h2
    have e3 : (country == "Germany") = false := beq_eq_false_iff_ne.mpr h3
    have e4 : (country == "France") = false := beq_eq_false_iff_ne.mpr h4
    have e5 : (country == "Canada") = false := beq_eq_false_iff_ne.mpr h5
    have e6 : (country == "Australia") = false := beq_eq_false_iff_ne.mpr h6
    simp [create_geo_targeted_prompt, geo_context, country_prompts, List.lookup,
      e1, e2, e3, e4, e5, e6, String.append_assoc]
  · have hc : (": ").length = 2 := rfl
    simp only [create_geo_targeted_prompt, String.length_append, hc]
    omega

/-- Witness for C6 at a concrete unknown country. -/
theorem C6_geo_prompt_builder_witness :
    create_geo_targeted_prompt "best coffee" "Ukraine"
      = "Answer as if responding to someone in " ++ "Ukraine" ++ ": " ++ "best coffee" :=
  (C6_geo_prompt_builder "best coffee" "Ukraine").2.2.2.2.2.2.1 (by decide)

/-- Every event the row loop emits is a Search Adapter call. -/
theorem processRows_events_searchOnly
    (search : String → Except String SearchRes) (rows : List QueryRow) :
    ∀ ev ∈ (processRows search rows).2, ∃ gp, ev = WEv.searchCall gp := by
  induction rows with
  | nil => intro ev hev; simp [processRows] at hev
  | cons q qs ih =>
    intro ev hev
    simp only [processRows] at hev
    cases hs : search (create_geo_targeted_prompt q.prompt q.country) with
    | error e =>
      rw [hs] at hev
      simp at hev
      exact ⟨_, hev⟩
    | ok sr =>
      rw [hs] at hev
      rcases hp : processRows search qs with ⟨res, evs⟩
      rw [hp] at hev
      cases res with
      | error e =>
        simp at hev
        rcases hev with rfl | hev2
        · exact ⟨_, rfl⟩
        · exact ih ev (by rw [hp]; exact hev2)
      | ok rows2 =>
        simp at hev
        rcases hev with rfl | hev2
        · exact ⟨_, rfl⟩
        · exact ih ev (by rw [hp]; exact hev2)

/-- Row-loop events are never a cleanup, a guard-record save or a send. -/
theorem processRows_events_benign
    (search : String → Except String SearchRes) (rows : List QueryRow) :
    ∀ ev ∈ (processRows search rows).2,
      ev ≠ WEv.removeTry ∧ ev.isSave = false ∧ ev.isSend = false := by
  intro ev hev
  obtain ⟨gp, rfl⟩ := processRows_events_searchOnly search rows ev hev
  exact ⟨by simp, rfl, rfl⟩

/-- When the Search Adapter succeeds on every row before `r` and raises on
`r`, the row loop stops at `r`: its outcome is the error and its trace is
exactly the adapter calls up to and including `r`. -/
theorem processRows_error_of_failure
    (search : String → Except String SearchRes) (pre : List QueryRow)
    (r : QueryRow) (post : List QueryRow) (e : String)
    (hpre : ∀ q ∈ pre, ∃ sr,
      search (create_geo_targeted_prompt q.prompt q.country) = Except.ok sr)
    (hr : search (create_geo_targeted_prompt r.prompt r.country) = Except.error e) :
    processRows search (pre ++ r :: post)
      = (Except.error e,
         pre.map (fun q => WEv.searchCall (create_geo_targeted_prompt q.prompt q.country))
           ++ [WEv.searchCall (create_geo_targeted_prompt r.prompt r.country)]) := by
  induction pre with
  | nil => simp [processRows, hr]
  | cons q pre2 ih =>
    obtain ⟨sr, hq⟩ := hpre q (by simp)
    have ih2 := ih (fun q2 hq2 => hpre q2 (by simp [hq2]))
    simp [processRows, hq, ih2]

/-- The cleanup event never occurs inside the `try` body. -/
theorem worker_body_no_remove (parse : Except String (List QueryRow))
    (search : String → Except String SearchRes)
    (saveOk sendOk : Bool) (email ip : String) :
    WEv.removeTry ∉ worker_body parse search saveOk sendOk email ip := by
  cases parse with
  | error e => simp [worker_body]
  | ok rows =>
    have hben := processRows_events_benign search rows
    rcases hp : processRows search rows with ⟨res, evs⟩
    rw [hp] at hben
    have hevs : WEv.removeTry ∉ evs := fun hmem => (hben _ hmem).1 rfl
    cases res with
    | error e => simp [worker_body, hp, hevs]
    | ok results =>
      cases saveOk <;> cases sendOk <;> simp [worker_body, hp, hevs]

/-- Claim C2: in every execution of the background job — whatever the parse
outcome, the Search Adapter behaviour and the save/send outcomes — the
removal of the temporary upload file is attempted exactly once, as the very
last step; the worker function is total, so cleanup never makes it raise
(the source swallows cleanup errors with `except: pass`). -/
theorem C2_cleanup_exactly_once (parse : Except String (List QueryRow))
    (search : String → Except String SearchRes)
    (saveOk sendOk : Bool) (email ip : String) :
    (process_file_worker parse search saveOk sendOk email ip).count WEv.removeTry = 1
  ∧ (process_file_worker parse search saveOk sendOk email ip).getLast?
      = some WEv.removeTry := by
  constructor
  · unfold process_file_worker
    rw [List.count_append]
    rw [List.count_eq_zero.mpr (worker_body_no_remove parse search saveOk sendOk email ip)]
    simp
  · unfold process_file_worker
    exact List.getLast?_concat _

/-- Claim C9 (and the shape behind the corrected C1): the guard record is
saved and the report emailed only when parsing and every row succeeded, with
the save strictly before the send and both after all row events; when the
parse or any row raises, neither the save nor the send happens; when the
save raises, the send does not happen. -/
theorem C9_save_and_send_order (parse : Except String (List QueryRow))
    (search : String → Except String SearchRes)
    (saveOk sendOk : Bool) (email ip : String) :
    (∀ e, parse = Except.error e →
      process_file_worker parse search saveOk sendOk email ip = [WEv.removeTry])
  ∧ (∀ rows e evs, parse = Except.ok rows →
      processRows search rows = (Except.error e, evs) →
      process_file_worker parse search saveOk sendOk email ip = evs ++ [WEv.removeTry]
      ∧ ∀ ev ∈ evs, ev.isSave = false ∧ ev.isSend = false)
  ∧ (∀ rows results evs, parse = Except.ok rows →
      processRows search rows = (Except.ok results, evs) →
      (∀ ev ∈ evs, ev.isSave = false ∧ ev.isSend = false)
      ∧ (saveOk = true → sendOk = true →
          process_file_worker parse search saveOk sendOk email ip
            = evs ++ [WEv.emailSaved email ip,
                      WEv.reportSent email results.length, WEv.removeTry])
      ∧ (saveOk = false →
          process_file_worker parse search saveOk sendOk email ip
            = evs ++ [WEv.removeTry])
      ∧ (saveOk = true → sendOk = false →
          process_file_worker parse search saveOk sendOk email ip
            = evs ++ [WEv.emailSaved email ip, WEv.removeTry])) := by
  refine ⟨?_, ?_, ?_⟩
  · intro e hp
    subst hp
    simp [process_file_worker, worker_body]
  · intro rows e evs hp hrows
    subst hp
    constructor
    · simp [process_file_worker, worker_body, hrows]
    · intro ev hev
      have h := processRows_events_benign search rows ev (by rw [hrows]; exact hev)
      exact ⟨h.2.1, h.2.2⟩
  · intro rows results evs hp hrows
    subst hp
    refine ⟨?_, ?_, ?_, ?_⟩
    · intro ev hev
      have h := processRows_events_benign search rows ev (by rw [hrows]; exact hev)
      exact ⟨h.2.1, h.2.2⟩
    · intro hsave hsend
      subst hsave; subst hsend
      simp [process_file_worker, worker_body, hrows]
    · intro hsave
      subst hsave
      simp [process_file_worker, worker_body, hrows]
    · intro hsave hsend
      subst hsave; subst hsend
      simp [process_file_worker, worker_body, hrows]

/-- Witness for C9: a one-row job whose search succeeds saves the record and
then sends a one-row report, in that order, before cleanup. -/
theorem C9_save_and_send_order_witness :
    process_file_worker (Except.ok [⟨"UK", "p", "t.com"⟩])
        (fun _ => Except.ok ⟨[], none⟩) true true "user@example.com" "203.0.113.9"
      = [WEv.searchCall (create_geo_targeted_prompt "p" "UK"),
         WEv.emailSaved "user@example.com" "203.0.113.9",
         WEv.reportSent "user@example.com" 1,
         WEv.removeTry] := by
  have h := (C9_save_and_send_order (Except.ok [⟨"UK", "p", "t.com"⟩])
      (fun _ => Except.ok ⟨[], none⟩) true true "user@example.com" "203.0.113.9").2.2
      [⟨"UK", "p", "t.com"⟩]
      [make_result_row ⟨"UK", "p", "t.com"⟩ (create_geo_targeted_prompt "p" "UK") ⟨[], none⟩]
      [WEv.searchCall (create_geo_targeted_prompt "p" "UK")] rfl rfl
  simpa using h.2.1 rfl rfl

/-- Counterexample for C1 as stated: with three rows whose second search
raises, the job does not produce any report (no send event at all, so in
particular no 3-row report with a sentinel row 2), and row 3 is never
searched; only the cleanup still runs. -/
theorem C1_counterexample :
    process_file_worker (Except.ok c1rows) c1search true true "user@example.com" "203.0.113.9"
      = [WEv.searchCall (create_geo_targeted_prompt "p1" "UK"),
         WEv.searchCall (create_geo_targeted_prompt "p2" "UK"),
         WEv.removeTry]
  ∧ (process_file_worker (Except.ok c1rows) c1search true true "user@example.com" "203.0.113.9").all
      (fun ev => !ev.isSend) = true := by
  constructor
  · rfl
  · rfl

/-- Claim C1 as amended: a Search Adapter failure on one row is not caught
per-row; it aborts the whole job — rows after the failing one are never
searched, no sentinel record is produced, no report is delivered and no
guard record saved — while the temporary file is still removed. -/
theorem C1_amended_row_failure_aborts_job
    (search : String → Except String SearchRes) (pre : List QueryRow)
    (r : QueryRow) (post : List QueryRow) (e : String)
    (saveOk sendOk : Bool) (email ip : String)
    (hpre : ∀ q ∈ pre, ∃ sr,
      search (create_geo_targeted_prompt q.prompt q.country) = Except.ok sr)
    (hr : search (create_geo_targeted_prompt r.prompt r.country) = Except.error e) :
    process_file_worker (Except.ok (pre ++ r :: post)) search saveOk sendOk email ip
      = pre.map (fun q => WEv.searchCall (create_geo_targeted_prompt q.prompt q.country))
          ++ [WEv.searchCall (create_geo_targeted_prompt r.prompt r.country),
              WEv.removeTry] := by
  have h := processRows_error_of_failure search pre r post e hpre hr
  simp [process_file_worker, worker_body, h]

/-- Witness for the amended C1 on the §8 scenario inputs. -/
theorem C1_amended_row_failure_aborts_job_witness :
    process_file_worker (Except.ok c1rows) c1search false false "user@example.com" "203.0.113.9"
      = [QueryRow.mk "UK" "p1" "t.com"].map
          (fun q => WEv.searchCall (create_geo_targeted_prompt q.prompt q.country))
        ++ [WEv.searchCall (create_geo_targeted_prompt "p2" "UK"), WEv.removeTry] :=
  C1_amended_row_failure_aborts_job c1search [QueryRow.mk "UK" "p1" "t.com"]
    (QueryRow.mk "UK" "p2" "t.com") [QueryRow.mk "UK" "p3" "t.com"] "timeout" false false
    "user@example.com" "203.0.113.9"
    (by
      intro q hq
      simp only [List.mem_singleton] at hq
      subst hq
      exact ⟨⟨["t.com"], some 10⟩, rfl⟩)
    rfl

/-- Claim C3: past the size check, a guard-store denial is surfaced as 429
(before any temp file is staged or worker started), while any other
guard-store exception leaves the request exactly as if the guard had
admitted it — in particular, with the staging step healthy the response is
200, never a 5xx for the guard outage alone. -/
theorem C3_guard_denial_and_degrade (env : SubmitEnv) (email fname : String)
    (content : List Nat) (ip : String)
    (hemail : env.emailOk email = true) (hread : env.readFails = false)
    (hsize : content.length ≤ env.maxBytes) :
    (∀ m, submit_file { env with guard := GuardBehavior.deny m } email fname content ip
        = (429, [SEv.guardAccess ip (env.hashFn content) env.allowRetry]))
  ∧ (∀ m, submit_file { env with guard := GuardBehavior.storeFail m } email fname content ip
        = submit_file { env with guard := GuardBehavior.allow } email fname content ip)
  ∧ (∀ m, env.tempFails = false →
      (submit_file { env with guard := GuardBehavior.storeFail m } email fname content ip).1
        = 200) := by
  have hns : ¬(env.maxBytes < content.length) := Nat.not_lt.mpr hsize
  refine ⟨?_, ?_, ?_⟩
  · intro m
    simp [submit_file, hemail, hread, hns]
  · intro m
    simp [submit_file, hemail, hread, hns]
  · intro m htemp
    simp [submit_file, hemail, hread, hns, htemp]

/-- Witness for C3 at a concrete environment. -/
theorem C3_guard_denial_and_degrade_witness :
    (submit_file
        { emailOk := fun e => e == "user@example.com"
        , hashFn := fun c => toString c.length
        , extFn := fun _ => ".csv"
        , maxBytes := 100
        , readFails := false
        , guard := GuardBehavior.deny "duplicate"
        , tempFails := false
        , allowRetry := false } "user@example.com" "data.csv" [1, 2, 3] "203.0.113.9")
      = (429, [SEv.guardAccess "203.0.113.9" "3" false]) :=
  (C3_guard_denial_and_degrade
    { emailOk := fun e => e == "user@example.com"
    , hashFn := fun c => toString c.length
    , extFn := fun _ => ".csv"
    , maxBytes := 100
    , readFails := false
    , guard := GuardBehavior.deny "duplicate"
    , tempFails := false
    , allowRetry := false } "user@example.com" "data.csv" [1, 2, 3] "203.0.113.9"
    rfl rfl (by decide)).1 "duplicate"

/-- Claim C7: an oversized payload (past a valid email and a successful
read) is rejected with 400 before anything else happens: the returned trace
is empty, so the guard store is never consulted, the fingerprint is never
used for admission, no temp file is written and no worker (hence no
parsing) is started. -/
theorem C7_size_check_before_everything (env : SubmitEnv) (email fname : String)
    (content : List Nat) (ip : String)
    (hemail : env.emailOk email = true) (hread : env.readFails = false)
    (hsize : env.maxBytes < content.length) :
    submit_file env email fname content ip = (400, [])
  ∧ guardArgs (submit_file env email fname content ip).2 = none := by
  have h : submit_file env email fname content ip = (400, []) := by
    simp [submit_file, hemail, hread, hsize]
  exact ⟨h, by rw [h]; rfl⟩

/-- Witness for C7 at a concrete oversized upload. -/
theorem C7_size_check_before_everything_witness :
    submit_file
      { emailOk := fun e => e == "user@example.com"
      , hashFn := fun c => toString c.length
      , extFn := fun _ => ".csv"
      , maxBytes := 2
      , readFails := false
      , guard := GuardBehavior.allow
      , tempFails := false
      , allowRetry := false } "user@example.com" "data.csv" [1, 2, 3] "203.0.113.9"
    = (400, []) :=
  (C7_size_check_before_everything
    { emailOk := fun e => e == "user@example.com"
    , hashFn := fun c => toString c.length
    , extFn := fun _ => ".csv"
    , maxBytes := 2
    , readFails := false
    , guard := GuardBehavior.allow
    , tempFails := false
    , allowRetry := false } "user@example.com" "data.csv" [1, 2, 3] "203.0.113.9"
    rfl rfl (by decide)).1

/-- Claim C10: for admitted-size uploads the admission check receives
exactly (client IP, hash of the raw bytes, retry flag): two submissions
with byte-identical content from the same client present identical guard
inputs whatever their declared filenames or submitter emails. -/
theorem C10_admission_input (env : SubmitEnv) (e1 e2 f1 f2 : String)
    (content : List Nat) (ip : String)
    (h1 : env.emailOk e1 = true) (h2 : env.emailOk e2 = true)
    (hread : env.readFails = false) (hsize : content.length ≤ env.maxBytes) :
    guardArgs (submit_file env e1 f1 content ip).2
      = guardArgs (submit_file env e2 f2 content ip).2
  ∧ guardArgs (submit_file env e1 f1 content ip).2
      = some (ip, env.hashFn content, env.allowRetry) := by
  have hns : ¬(env.maxBytes < content.length) := Nat.not_lt.mpr hsize
  have key : ∀ e f, env.emailOk e = true →
      guardArgs (submit_file env e f content ip).2
        = some (ip, env.hashFn content, env.allowRetry) := by
    intro e f he
    cases hg : env.guard <;> cases ht : env.tempFails <;>
      simp [submit_file, he, hread, hns, hg, ht, guardArgs]
  exact ⟨(key e1 f1 h1).trans (key e2 f2 h2).symm, key e1 f1 h1⟩

/-- Witness for C10: same bytes, same client, different email and filename. -/
theorem C10_admission_input_witness :
    guardArgs (submit_file
        { emailOk := fun e => e == "a@example.com" || e == "b@example.com"
        , hashFn := fun c => toString c.length
        , extFn := fun _ => ".csv"
        , maxBytes := 100
        , readFails := false
        , guard := GuardBehavior.allow
        , tempFails := false
        , allowRetry := true } "a@example.com" "one.csv" [7, 7] "203.0.113.9").2
      = guardArgs (submit_file
        { emailOk := fun e => e == "a@example.com" || e == "b@example.com"
        , hashFn := fun c => toString c.length
        , extFn := fun _ => ".csv"
        , maxBytes := 100
        , readFails := false
        , guard := GuardBehavior.allow
        , tempFails := false
        , allowRetry := true } "b@example.com" "two.xlsx" [7, 7] "203.0.113.9").2 :=
  (C10_admission_input
    { emailOk := fun e => e == "a@example.com" || e == "b@example.com"
    , hashFn := fun c => toString c.length
    , extFn := fun _ => ".csv"
    , maxBytes := 100
    , readFails := false
    , guard := GuardBehavior.allow
    , tempFails := false
    , allowRetry := true } "a@example.com" "b@example.com" "one.csv" "two.xlsx"
    [7, 7] "203.0.113.9" rfl rfl rfl (by decide)).1

/-! ### CSV round-trip lemmas -/

/-- Lemma: `consF` distributes over `cons` as one `prep` step. -/
theorem consF_cons (c : Char) (f : List Char) (t : List (List (List Char))) :
    consF (c :: f) t = prep c (consF f t) := rfl

/-- Prepending a character list into a table with an explicit leading field. -/
theorem consF_head (f g : List Char) (fs : List (List Char))
    (rs : List (List (List Char))) :
    consF f ((g :: fs) :: rs) = ((f ++ g) :: fs) :: rs := by
  induction f with
  | nil => rfl
  | cons c f2 ih =>
    rw [consF_cons, ih]
    rfl

/-- One reader step in quoted mode: an ordinary character joins the field. -/
theorem pcsv_true_other (c : Char) (rest : List Char) (hc : c ≠ '"') :
    pcsv true (c :: rest) = prep c (pcsv true rest) := by
  rw [pcsv.eq_def]
  simp [hc]

/-- One reader step in quoted mode: a doubled quote is a literal quote. -/
theorem pcsv_true_qq (rest : List Char) :
    pcsv true ('"' :: '"' :: rest) = prep '"' (pcsv true rest) := rfl

/-- One reader step in quoted mode: a lone quote closes the field and the
reader continues in normal mode. -/
theorem pcsv_true_close (d : Char) (rest : List Char) (hd : d ≠ '"') :
    pcsv true ('"' :: d :: rest) = pcsv false (d :: rest) := by
  rw [pcsv.eq_def, pcsv.eq_def]
  simp [hd]

/-- One reader step in normal mode: a quote opens a quoted field. -/
theorem pcsv_false_quote (rest : List Char) :
    pcsv false ('"' :: rest) = pcsv true rest := rfl

/-- One reader step in normal mode: a comma opens a fresh field. -/
theorem pcsv_false_comma (rest : List Char) :
    pcsv false (',' :: rest) = newField (pcsv false rest) := rfl

/-- One reader step in normal mode: a newline opens a fresh row. -/
theorem pcsv_false_nl (rest : List Char) :
    pcsv false ('\n' :: rest) = [[]] :: pcsv false rest := rfl

/-- One reader step in normal mode: an ordinary character joins the field. -/
theorem pcsv_false_other (c : Char) (rest : List Char)
    (h1 : c ≠ '"') (h2 : c ≠ ',') (h3 : c ≠ '\n') :
    pcsv false (c :: rest) = prep c (pcsv false rest) := by
  rw [pcsv.eq_def]
  simp [h1, h2, h3]

/-- Reading quoted content: the escaped field body followed by the closing
quote parses back to the field, continuing in normal mode. -/
theorem pcsv_quoted (f Z : List Char) (hZ : Z.head? ≠ some '"') :
    pcsv true (dq f ++ '"' :: Z) = consF f (pcsv false Z) := by
  induction f with
  | nil =>
    show pcsv true ('"' :: Z) = pcsv false Z
    cases Z with
    | nil => rfl
    | cons d Z2 =>
      have hd : d ≠ '"' := fun h => hZ (by simp [h])
      exact pcsv_true_close d Z2 hd
  | cons c f2 ih =>
    by_cases hc : c = '"'
    · subst hc
      show pcsv true ('"' :: '"' :: (dq f2 ++ '"' :: Z)) = _
      rw [pcsv_true_qq, ih]
      rfl
    · rw [show dq (c :: f2) = c :: dq f2 from by simp [dq, hc]]
      show pcsv true (c :: (dq f2 ++ '"' :: Z)) = _
      rw [pcsv_true_other c _ hc, ih]
      rfl

/-- Reading unquoted content: benign characters are consumed into the
current field. -/
theorem pcsv_unquoted (f Z : List Char)
    (hf : ∀ c ∈ f, c ≠ '"' ∧ c ≠ ',' ∧ c ≠ '\n') :
    pcsv false (f ++ Z) = consF f (pcsv false Z) := by
  induction f with
  | nil => rfl
  | cons c f2 ih =>
    obtain ⟨h1, h2, h3⟩ := hf c (by simp)
    have ih2 := ih (fun d hd => hf d (by simp [hd]))
    show pcsv false (c :: (f2 ++ Z)) = _
    rw [pcsv_false_other c _ h1 h2 h3, ih2]
    rfl

/-- Reading one escaped field when the rest of the input starts at a field
or row boundary (or ends). -/
theorem pcsv_escField (f Z : List Char)
    (hZ : Z = [] ∨ Z.head? = some ',' ∨ Z.head? = some '\n') :
    pcsv false (escField f ++ Z) = consF f (pcsv false Z) := by
  have hZq : Z.head? ≠ some '"' := by
    rcases hZ with rfl | h | h
    · simp
    · simp [h]
    · simp [h]
  by_cases hq : needsQuote f
  · rw [escField, if_pos hq]
    have hassoc : ('"' :: (dq f ++ ['"'])) ++ Z = '"' :: (dq f ++ '"' :: Z) := by
      simp
    rw [hassoc]
    have hstep : pcsv false ('"' :: (dq f ++ '"' :: Z))
        = pcsv true (dq f ++ '"' :: Z) := by
      simp [pcsv]
    rw [hstep]
    exact pcsv_quoted f Z hZq
  · rw [escField, if_neg hq]
    apply pcsv_unquoted
    intro c hc
    simp only [needsQuote, List.any_eq_true, Bool.or_eq_true, decide_eq_true_eq,
      not_exists, not_and, not_or] at hq
    exact ⟨(hq c hc).1.1, (hq c hc).1.2, (hq c hc).2⟩

/-- Reading one rendered row followed by a newline. -/
theorem pcsv_renderRow (fs : List (List Char)) (Z : List Char) (hfs : fs ≠ []) :
    pcsv false (renderRow fs ++ '\n' :: Z) = fs :: pcsv false Z := by
  induction fs with
  | nil => cases hfs rfl
  | cons f fs2 ih =>
    cases fs2 with
    | nil =>
      show pcsv false (escField f ++ '\n' :: Z) = [f] :: pcsv false Z
      rw [pcsv_escField f ('\n' :: Z) (Or.inr (Or.inr rfl))]
      have hstep : pcsv false ('\n' :: Z) = [[]] :: pcsv false Z := by
        simp [pcsv]
      rw [hstep, consF_head]
      simp
    | cons f2 fs3 =>
      show pcsv false ((escField f ++ ',' :: renderRow (f2 :: fs3)) ++ '\n' :: Z) = _
      have hassoc : (escField f ++ ',' :: renderRow (f2 :: fs3)) ++ '\n' :: Z
          = escField f ++ ',' :: (renderRow (f2 :: fs3) ++ '\n' :: Z) := by
        simp
      rw [hassoc]
      rw [pcsv_escField f (',' :: (renderRow (f2 :: fs3) ++ '\n' :: Z))
        (Or.inr (Or.inl rfl))]
      have hstep : pcsv false (',' :: (renderRow (f2 :: fs3) ++ '\n' :: Z))
          = newField (pcsv false (renderRow (f2 :: fs3) ++ '\n' :: Z)) := by
        simp [pcsv]
      rw [hstep, ih (by simp)]
      show consF f (([] :: f2 :: fs3) :: pcsv false Z) = _
      rw [consF_head]
      simp

/-- Reading a whole rendered table: one parsed row per rendered row, plus
the empty row contributed by the trailing newline. -/
theorem pcsv_renderTable (rows : List (List (List Char)))
    (hrows : ∀ r ∈ rows, r ≠ []) :
    pcsv false (renderTable rows) = rows ++ [[[]]] := by
  induction rows with
  | nil => rfl
  | cons r rs ih =>
    show pcsv false (renderRow r ++ '\n' :: renderTable rs) = _
    rw [pcsv_renderRow r _ (hrows r (by simp))]
    rw [ih (fun r2 h2 => hrows r2 (by simp [h2]))]
    rfl

/-- Claim C8: report assembly is a pure function of the record list, and its
byte artifact parses back as a table into exactly one header row followed by
one row per record, each row carrying the rendered fields of that record
unchanged (both prompts, all metrics fields, tokens used) — so the table has
`records.length + 1` rows. -/
theorem C8_report_roundtrip (records : List MetricsRecord) :
    parseCsv (assembleReport records)
      = fieldsToChars headerFields
          :: records.map (fun r => fieldsToChars (recordFields r))
  ∧ (parseCsv (assembleReport records)).length = records.length + 1 := by
  have hrows : ∀ r ∈ (fieldsToChars headerFields
      :: records.map (fun r => fieldsToChars (recordFields r))), r ≠ [] := by
    intro r hr
    rcases List.mem_cons.mp hr with rfl | h
    · simp [fieldsToChars, headerFields]
    · obtain ⟨rec, -, rfl⟩ := List.mem_map.mp h
      simp [fieldsToChars, recordFields]
  have h1 : parseCsv (assembleReport records)
      = fieldsToChars headerFields
          :: records.map (fun r => fieldsToChars (recordFields r)) := by
    unfold parseCsv assembleReport
    have hbom : ∀ X, stripBom (bomChar :: X) = X := by
      intro X; simp [stripBom]
    rw [hbom]
    rw [pcsv_renderTable _ hrows]
    unfold stripTrailingEmptyRow
    rw [List.getLast?_concat, if_pos rfl, List.dropLast_concat]
  refine ⟨h1, ?_⟩
  rw [h1]
  simp

end BoostMyGeo
